import Mathlib

/-!
Verification of the `polygon` REST-client library (request/response pipeline).

This file shallowly embeds the parts of the source that the claims are
about:

* `src/query.rs`      — the generic `Query` builder (`param`, `params`,
  `require`, `optional`) and `Query::execute_request` (auth-key injection,
  required/allow-list validation, query-string building, HTTP status
  classification and structured-error extraction);
* `src/processor/raw.rs` — the `Raw` output processor;
* `src/request/common.rs` — `Timespan::from_str`, `Limit` conversions;
* `src/request/aggs/aggregates.rs` — the `Aggregates` endpoint builder's
  `get`;
* `src/tool_use.rs`   — the `call_endpoint` result split into
  `data`/`metadata`.

Strings are modelled as Lean `String` (a list of `Char`); the concrete
inputs appearing in the claims are ASCII, so byte indices in the Rust
source coincide with character indices here.  `serde_json::from_str` is
modelled by an executable JSON parser (`parseJson`) covering the JSON
subset exchanged by this API (objects, arrays, strings with simple
escapes, integer numbers, booleans, null); like `serde_json::from_str`
it rejects trailing characters after the first complete value, which is
what makes the `}{`-truncation in `execute_request` observable.
-/

/-! ## JSON values (model of `serde_json::Value`) -/

/-- Model of `serde_json::Value`.  Objects are association lists with
unique keys (serde's map; on duplicate keys the parser below keeps the
last value, as serde_json does).  Numbers cover the integer subset used
by the claims. -/
inductive Json where
  | null : Json
  | bool (b : Bool) : Json
  | num (n : Int) : Json
  | str (s : String) : Json
  | arr (elems : List Json) : Json
  | obj (fields : List (String × Json)) : Json

/-- First-match association lookup (keys are unique after parsing). -/
def lookupField : List (String × Json) → String → Option Json
  | [], _ => Option.none
  | (k', v) :: rest, k => if k' = k then Option.some v else lookupField rest k

/-- Model of `serde_json::Value::get(key)`: `None` on non-objects. -/
def Json.get (j : Json) (k : String) : Option Json :=
  match j with
  | Json.obj fs => lookupField fs k
  | _ => Option.none

/-- Model of `Value::as_str()`. -/
def Json.asStr (j : Json) : Option String :=
  match j with
  | Json.str s => Option.some s
  | _ => Option.none

/-- Remove a key from an association list (keys unique, so removing the
first occurrence is removing the key, as `serde_json::Map::remove`). -/
def eraseField : List (String × Json) → String → List (String × Json)
  | [], _ => []
  | (k', v) :: rest, k => if k' = k then rest else (k', v) :: eraseField rest k

/-- Model of `obj.remove(key)` applied through `Value::as_object_mut`:
non-objects are left unchanged. -/
def Json.removeField (j : Json) (k : String) : Json :=
  match j with
  | Json.obj fs => Json.obj (eraseField fs k)
  | other => other

/-- Insert a member into an object's field list, replacing an existing
binding of the same key in place (serde_json's last-wins policy for
duplicate keys in the input text). -/
def insertMember : List (String × Json) → String → Json → List (String × Json)
  | [], k, v => [(k, v)]
  | (k', v') :: rest, k, v =>
    if k' = k then (k, v) :: rest else (k', v') :: insertMember rest k v

/-! ### JSON text parser (model of `serde_json::from_str`) -/

/-- JSON whitespace skipping. -/
def skipWs : List Char → List Char
  | [] => []
  | c :: cs => if c = ' ' ∨ c = '\n' ∨ c = '\t' ∨ c = '\r' then skipWs cs else c :: cs

/-- Translate a JSON escape character (the character after a backslash). -/
def escChar (c : Char) : Option Char :=
  if c = '"' then Option.some '"'
  else if c = '\\' then Option.some '\\'
  else if c = '/' then Option.some '/'
  else if c = 'n' then Option.some '\n'
  else if c = 't' then Option.some '\t'
  else if c = 'r' then Option.some '\r'
  else Option.none

/-- Parse the remainder of a JSON string literal (the opening quote has
been consumed); returns the decoded characters and the rest of the
input. -/
def parseStringRest : List Char → Option (List Char × List Char)
  | [] => Option.none
  | '"' :: rest => Option.some ([], rest)
  | '\\' :: e :: rest =>
    match escChar e, parseStringRest rest with
    | Option.some c, Option.some (s, r) => Option.some (c :: s, r)
    | _, _ => Option.none
  | '\\' :: [] => Option.none
  | c :: rest =>
    match parseStringRest rest with
    | Option.some (s, r) => Option.some (c :: s, r)
    | Option.none => Option.none

/-- Digit run accumulator for integer literals. -/
def parseDigits : List Char → Nat → (Nat × List Char)
  | c :: cs, acc =>
    if c.isDigit then parseDigits cs (acc * 10 + (c.toNat - 48)) else (acc, c :: cs)
  | [], acc => (acc, [])

/-- Parse a JSON integer literal (optional minus sign, digit run).
Fractional and exponent forms are outside the modelled subset and
rejected. -/
def parseNum : List Char → Option (Int × List Char)
  | '-' :: c :: cs =>
    if c.isDigit then
      match parseDigits (c :: cs) 0 with
      | (n, rest) => Option.some (-(Int.ofNat n), rest)
    else Option.none
  | c :: cs =>
    if c.isDigit then
      match parseDigits (c :: cs) 0 with
      | (n, rest) => Option.some (Int.ofNat n, rest)
    else Option.none
  | [] => Option.none

mutual

/-- Fueled recursive-descent parser for one JSON value. -/
def parseVal : Nat → List Char → Option (Json × List Char)
  | 0, _ => Option.none
  | Nat.succ f, input =>
    match skipWs input with
    | 'n' :: 'u' :: 'l' :: 'l' :: rest => Option.some (Json.null, rest)
    | 't' :: 'r' :: 'u' :: 'e' :: rest => Option.some (Json.bool true, rest)
    | 'f' :: 'a' :: 'l' :: 's' :: 'e' :: rest => Option.some (Json.bool false, rest)
    | '"' :: rest =>
      match parseStringRest rest with
      | Option.some (s, r) => Option.some (Json.str (String.mk s), r)
      | Option.none => Option.none
    | '[' :: rest =>
      (match skipWs rest with
       | ']' :: r => Option.some (Json.arr [], r)
       | other =>
         match parseElems f other with
         | Option.some (vs, r) => Option.some (Json.arr vs, r)
         | Option.none => Option.none)
    | '{' :: rest =>
      (match skipWs rest with
       | '}' :: r => Option.some (Json.obj [], r)
       | other =>
         match parseMembers f other with
         | Option.some (ms, r) =>
           Option.some (Json.obj (ms.foldl (fun acc m => insertMember acc m.1 m.2) []), r)
         | Option.none => Option.none)
    | other =>
      match parseNum other with
      | Option.some (n, rest) => Option.some (Json.num n, rest)
      | Option.none => Option.none

/-- Fueled parser for the elements of a non-empty array (up to and
including the closing bracket). -/
def parseElems : Nat → List Char → Option (List Json × List Char)
  | 0, _ => Option.none
  | Nat.succ f, input =>
    match parseVal f input with
    | Option.some (v, rest) =>
      (match skipWs rest with
       | ',' :: r =>
         match parseElems f r with
         | Option.some (vs, r') => Option.some (v :: vs, r')
         | Option.none => Option.none
       | ']' :: r => Option.some ([v], r)
       | _ => Option.none)
    | Option.none => Option.none

/-- Fueled parser for the members of a non-empty object (up to and
including the closing brace). -/
def parseMembers : Nat → List Char → Option (List (String × Json) × List Char)
  | 0, _ => Option.none
  | Nat.succ f, input =>
    match skipWs input with
    | '"' :: rest =>
      (match parseStringRest rest with
       | Option.some (k, afterKey) =>
         (match skipWs afterKey with
          | ':' :: afterColon =>
            (match parseVal f afterColon with
             | Option.some (v, rest') =>
               (match skipWs rest' with
                | ',' :: r =>
                  match parseMembers f r with
                  | Option.some (ms, r') => Option.some ((String.mk k, v) :: ms, r')
                  | Option.none => Option.none
                | '}' :: r => Option.some ([(String.mk k, v)], r)
                | _ => Option.none)
             | Option.none => Option.none)
          | _ => Option.none)
       | Option.none => Option.none)
    | _ => Option.none

end

/-- Model of `serde_json::from_str::<serde_json::Value>`: parses exactly
one JSON value; anything but whitespace after it (for instance a second
concatenated object) is an error, as in serde_json. -/
def parseJson (s : String) : Option Json :=
  match parseVal (s.length + 1) s.data with
  | Option.some (v, rest) => if skipWs rest = [] then Option.some v else Option.none
  | Option.none => Option.none

/-- Parser sanity: a single error object parses as serde_json parses it. -/
theorem parseJson_singleObject : parseJson "\x7b\"error\":\"bad ticker\"\x7d" =
    Option.some (Json.obj [("error", Json.str "bad ticker")]) := rfl

/-- Parser sanity: two JSON objects concatenated back-to-back are a
parse error (serde_json's trailing-characters rejection). -/
theorem parseJson_concatReject :
    parseJson "\x7b\"error\":\"bad ticker\"\x7d\x7b\"extra\":\"garbage\"\x7d" =
    Option.none := rfl

/-! ## Error taxonomy (model of `src/error.rs` `Error`)

The source renders validation failures as `Error::Custom` strings whose
text embeds a `{:?}`-formatted `Vec` collected from a `HashSet`, so the
order of the listed names is nondeterministic.  The embedding keeps the
payload of each such error as the underlying finite set instead of a
rendered string; all other constructors carry the same data as the
source.  Transport failures (`reqwest` errors) are opaque to this crate
and carried as an uninterpreted string. -/
inductive ExecError where
  /-- `Error::MissingApiKey`. -/
  | missingApiKey : ExecError
  /-- `Error::Custom(format!("Missing required parameters: {:?}", missing))`. -/
  | missingParams (missing : Finset String) : ExecError
  /-- `Error::Custom(format!("Invalid parameters: {:?}. Allowed: {:?}", invalid, allowed))`. -/
  | invalidParams (invalid : Finset String) (allowed : Finset String) : ExecError
  /-- `Error::ApiError { status, message, request_id }`. -/
  | apiError (status : Nat) (message : String) (requestId : Option String) : ExecError
  /-- `Error::Custom(format!("HTTP {}: {}", status, body))`, the non-JSON fallback. -/
  | httpError (status : Nat) (body : String) : ExecError
  /-- A wrapped transport-level failure (opaque to the crate). -/
  | transportErr (e : String) : ExecError
  /-- Any other `Error::Custom(msg)`. -/
  | custom (msg : String) : ExecError
deriving DecidableEq

/-- Decidable equality for `Except`, used to evaluate the embedding on
concrete inputs. -/
instance exceptDecEq {ε α : Type} [DecidableEq ε] [DecidableEq α] :
    DecidableEq (Except ε α) := fun a b =>
  match a, b with
  | Except.error e, Except.error f =>
    if h : e = f then Decidable.isTrue (by subst h; rfl)
    else Decidable.isFalse (fun hh => h (by cases hh; rfl))
  | Except.ok x, Except.ok y =>
    if h : x = y then Decidable.isTrue (by subst h; rfl)
    else Decidable.isFalse (fun hh => h (by cases hh; rfl))
  | Except.error _, Except.ok _ => Decidable.isFalse (fun hh => by cases hh)
  | Except.ok _, Except.error _ => Decidable.isFalse (fun hh => by cases hh)

/-- Model of the `Response` trait (`src/response.rs`): HTTP status,
body text, optional correlation id. -/
structure Response where
  status : Nat
  body : String
  requestId : Option String
deriving DecidableEq

/-! ## Status classification and error-body parsing
(`Query::execute_request`, `src/query.rs` lines 150-186) -/

/-- Position of the first occurrence of the two-character pattern
`}{`, as `body.find("}{")` computes it for this fixed pattern. -/
def dupPos : List Char → Option Nat
  | [] => Option.none
  | c :: cs =>
    if c = '}' ∧ cs.head? = Option.some '{' then Option.some 0
    else (dupPos cs).map (· + 1)

/-- The `json_to_parse` selection of `execute_request`: truncate the
body just after the `}` of the first `}{` boundary (keeping the first
object), or keep the whole body if there is no such boundary. -/
def truncAtDup (body : String) : String :=
  match dupPos body.data with
  | Option.some p => String.mk (body.data.take (p + 1))
  | Option.none => body

/-- `value.get("error").or_else(|| value.get("message"))`: the
`message` field is consulted only when the `error` field is absent. -/
def errorOrMessageField (v : Json) : Option Json :=
  match Json.get v "error" with
  | Option.some e => Option.some e
  | Option.none => Json.get v "message"

/-- The extracted error message: the `error`-or-`message` field when it
is a string, `"Unknown error"` otherwise. -/
def errMessage (v : Json) : String :=
  match Option.bind (errorOrMessageField v) Json.asStr with
  | Option.some m => m
  | Option.none => "Unknown error"

/-- The extracted optional `request_id` field (when it is a string). -/
def errRequestId (v : Json) : Option String :=
  Option.bind (Json.get v "request_id") Json.asStr

/-- The failure-path result for a status `>= 400` response: a
structured `ApiError` when the (truncated) body parses as JSON, the
generic `HTTP {status}: {body}` fallback otherwise.  `parsed` is the
parse of the truncated body, `body` the original body used by the
fallback. -/
def mkErrorResult (status : Nat) (parsed : Option Json) (body : String) :
    Except ExecError String :=
  match parsed with
  | Option.some v => Except.error (ExecError.apiError status (errMessage v) (errRequestId v))
  | Option.none => Except.error (ExecError.httpError status body)

/-- The status classification of `Query::execute_request`
(`src/query.rs` lines 150-186): status `>= 400` takes the failure path
(truncate at the first `}{`, attempt structured-error extraction);
every other status returns the body unchanged. -/
def classifyResponse (status : Nat) (body : String) : Except ExecError String :=
  if 400 ≤ status then mkErrorResult status (parseJson (truncAtDup body)) body
  else Except.ok body

/-- Model of `Raw::process` (`src/processor/raw.rs`): propagate an
upstream error; status different from 200 becomes an `ApiError`
carrying the body as message; status 200 returns the body. -/
def rawProcess (response : Except ExecError Response) : Except ExecError String :=
  match response with
  | Except.error e => Except.error e
  | Except.ok resp =>
    if resp.status ≠ 200 then
      Except.error (ExecError.apiError resp.status resp.body resp.requestId)
    else Except.ok resp.body

/-! ## The `Query` builder (`src/query.rs`)

Parameter values reach the query string through the external `decoder`
crate's `Value`; only their final textual encoding is observable in the
claims, so values are carried here as their encoded text. -/

/-- The validation-relevant state of `Query` (`src/query.rs` lines
84-94): the ordered parameter list, the required-name set and the
allow-list (both `HashSet`s in the source, modelled as `Finset`). -/
structure QueryState where
  params : List (String × String)
  required : Finset String
  allowed : Finset String
deriving DecidableEq

/-- `Query::new`: no parameters, empty required set, empty allow-list. -/
def Query.new : QueryState :=
  { params := [], required := ∅, allowed := ∅ }

/-- `Query::param`: push one `(key, value)` pair; append-only. -/
def Query.param (q : QueryState) (key value : String) : QueryState :=
  { q with params := q.params ++ [(key, value)] }

/-- `Query::params`: extend with many pairs; append-only.  (Named
`addParams` because the structure field is already called `params`.) -/
def Query.addParams (q : QueryState) (ps : List (String × String)) : QueryState :=
  { q with params := q.params ++ ps }

/-- `Query::require`: mark a name required and implicitly allowed. -/
def Query.require (q : QueryState) (key : String) : QueryState :=
  { q with required := insert key q.required, allowed := insert key q.allowed }

/-- `Query::optional`: mark a name allowed. -/
def Query.optional (q : QueryState) (key : String) : QueryState :=
  { q with allowed := insert key q.allowed }

/-- The set of parameter names supplied to the builder through
`param`/`params` (before auth-key injection). -/
def suppliedNames (q : QueryState) : Finset String :=
  (q.params.map Prod.fst).toFinset

/-- One percent-encoded character.
Modelled from the spec: "URL-encode all (name, value) pairs"; the
actual encoding lives in the external `serde_urlencoded` crate.
Unreserved ASCII characters pass through, everything else becomes
`%XX`. -/
def encChar (c : Char) : List Char :=
  if c.isAlphanum ∨ c = '-' ∨ c = '_' ∨ c = '.' ∨ c = '~' then [c]
  else
    let n := c.toNat
    let hexDigit := fun (d : Nat) => if d < 10 then Char.ofNat (48 + d) else Char.ofNat (55 + d)
    ['%', hexDigit (n / 16 % 16), hexDigit (n % 16)]

/-- Percent-encode a string character by character. -/
def percentEncode (s : String) : String :=
  String.mk (s.data.foldr (fun c acc => encChar c ++ acc) [])

/-- One `name=value` query-string item. -/
def encodePair (k v : String) : String :=
  percentEncode k ++ "=" ++ percentEncode v

/-- Modelled from the spec: the serialization of the parameter list
performed by the external `decoder::encode::map` plus
`serde_urlencoded::to_string` ("URL-encode all (name, value) pairs
(including duplicates) into a query string"; "preserve as an ordered
list of pairs, not a map").  The pairs are rendered in order, joined
with `&`. -/
def queryStringOf : List (String × String) → String
  | [] => ""
  | [p] => encodePair p.1 p.2
  | p :: rest => encodePair p.1 p.2 ++ "&" ++ queryStringOf rest

/-- The transport round-trip and classification tail of
`execute_request` (lines 146-186): issue the GET, wrap a transport
failure, classify the response status. -/
def sendAndClassify (transport : String → Except String Response) (url : String) :
    Except ExecError String :=
  match transport url with
  | Except.error e => Except.error (ExecError.transportErr e)
  | Except.ok resp => classifyResponse resp.status resp.body

/-- Model of `Query::execute_request` (`src/query.rs` lines 110-188):
resolve the auth key (`MissingApiKey` if absent), append it as
`apiKey`, validate required names, validate the allow-list when
non-empty, build the query string, send, classify. -/
def executeRequest (apiKey? : Option String) (q : QueryState) (baseUrl : String)
    (transport : String → Except String Response) : Except ExecError String :=
  match apiKey? with
  | Option.none => Except.error ExecError.missingApiKey
  | Option.some key =>
    let ps := q.params ++ [("apiKey", key)]
    let provided : Finset String := (ps.map Prod.fst).toFinset
    let missing : Finset String := q.required \ provided
    if missing = ∅ then
      if q.allowed = ∅ then
        sendAndClassify transport (baseUrl ++ "?" ++ queryStringOf ps)
      else
        let invalid : Finset String := (provided \ q.allowed).erase "apiKey"
        if invalid = ∅ then
          sendAndClassify transport (baseUrl ++ "?" ++ queryStringOf ps)
        else Except.error (ExecError.invalidParams invalid q.allowed)
    else Except.error (ExecError.missingParams missing)

/-! ## Common request types (`src/request/common.rs`) -/

/-- ASCII lowercasing, modelling Rust's `str::to_lowercase` on the
ASCII inputs these fields receive. -/
def strToLower (s : String) : String :=
  String.mk (s.data.map Char.toLower)

/-- `Timespan` (`src/request/common.rs` lines 56-71). -/
inductive Timespan where
  | minute : Timespan
  | hour : Timespan
  | day : Timespan
  | week : Timespan
  | month : Timespan
  | quarter : Timespan
  | year : Timespan
deriving DecidableEq

/-- The `{:?}` (Debug) rendering of a `Timespan` variant. -/
def timespanDebug : Timespan → String
  | Timespan.minute => "Minute"
  | Timespan.hour => "Hour"
  | Timespan.day => "Day"
  | Timespan.week => "Week"
  | Timespan.month => "Month"
  | Timespan.quarter => "Quarter"
  | Timespan.year => "Year"

/-- The accepted spellings of `Timespan::from_str`'s match arms, in
source order. -/
def timespanAccepted : List String :=
  ["minute", "min", "hour", "hr", "h", "day", "d", "dy", "week", "w", "wk",
   "month", "mo", "mth", "quarter", "q", "qrtr", "qtr", "year", "y", "yr"]

/-- The match on the lowercased string inside `Timespan::from_str`
(`src/request/common.rs` lines 75-87). -/
def timespanOfLower (t : String) : Except ExecError Timespan :=
  if t = "minute" ∨ t = "min" then Except.ok Timespan.minute
  else if t = "hour" ∨ t = "hr" ∨ t = "h" then Except.ok Timespan.hour
  else if t = "day" ∨ t = "d" ∨ t = "dy" then Except.ok Timespan.day
  else if t = "week" ∨ t = "w" ∨ t = "wk" then Except.ok Timespan.week
  else if t = "month" ∨ t = "mo" ∨ t = "mth" then Except.ok Timespan.month
  else if t = "quarter" ∨ t = "q" ∨ t = "qrtr" ∨ t = "qtr" then Except.ok Timespan.quarter
  else if t = "year" ∨ t = "y" ∨ t = "yr" then Except.ok Timespan.year
  else Except.error (ExecError.custom ("Invalid timespan: " ++ t))

/-- Model of `Timespan::from_str`: lowercase, then match.  Note the
error message interpolates the already-lowercased string `s`. -/
def timespanFromStr (s : String) : Except ExecError Timespan :=
  timespanOfLower (strToLower s)

/-- `SortOrder` (`src/request/common.rs` lines 10-18). -/
inductive SortOrder where
  | asc : SortOrder
  | desc : SortOrder
  | custom (s : String) : SortOrder
deriving DecidableEq

/-- `Limit` (`src/request/common.rs` lines 92-97); `u32` values are
carried as `Nat` (< 2^32 whenever produced by the conversions below). -/
inductive Limit where
  | none : Limit
  | some (n : Nat) : Limit
deriving DecidableEq

/-- Model of Rust's `str::parse::<u32>`: optional leading `+`, then one
or more ASCII digits, value below `2^32`; anything else fails.  (Rust
checks overflow at each fold step; since the accumulator only grows,
that is equivalent to the final-value bound checked here.) -/
def parseU32 (s : String) : Option Nat :=
  let cs := match s.data with
    | '+' :: rest => rest
    | other => other
  if cs = [] then Option.none
  else if cs.all Char.isDigit then
    let n := cs.foldl (fun acc c => acc * 10 + (c.toNat - 48)) 0
    if n < 4294967296 then Option.some n else Option.none
  else Option.none

/-- Model of `impl From<&str> for Limit` (`src/request/common.rs` lines
116-123): a parse success becomes `Limit::Some`, any parse failure
silently becomes `Limit::None`; total, never an error. -/
def limitFromStr (s : String) : Limit :=
  match parseU32 s with
  | Option.some v => Limit.some v
  | Option.none => Limit.none

/-- Rust's `as u32` cast on a signed integer value: reduction modulo
`2^32` of the mathematical value (two's-complement truncation). -/
def castToU32 (v : Int) : Nat :=
  (v % 4294967296).toNat

/-- Model of the `limit_from!` macro instances for the signed types
`i32`/`i64`/`isize` (`src/request/common.rs` lines 99-114):
`Limit::Some(value as u32)`, unconditionally. -/
def limitFromInt (v : Int) : Limit :=
  Limit.some (castToU32 v)

/-! ## The `Aggregates` endpoint builder (`src/request/aggs/aggregates.rs`) -/

/-- The public fields of the `Aggregates` builder (lines 15-34).
`from`/`to` are Lean keywords, hence `fromDate`/`toDate`. -/
structure AggregatesReq where
  ticker : String
  multiplier : Nat
  timespan : Timespan
  fromDate : String
  toDate : String
  adjusted : Option Bool
  sort : Option SortOrder
  limit : Option Nat

/-- `format!("{s:?}").to_lowercase()` applied to a `SortOrder` (line
187): the Debug rendering, lowercased. -/
def sortDebugLower : SortOrder → String
  | SortOrder.asc => "asc"
  | SortOrder.desc => "desc"
  | SortOrder.custom s => "custom(\x22" ++ strToLower s ++ "\x22)"

/-- Model of `Aggregates::get` with the `Raw` processor
(`src/request/aggs/aggregates.rs` lines 164-205): build the path,
resolve the API key — failing with `Error::Custom("API key not set")`
when absent, before the transport is consulted — assemble the query
parameters, issue the GET and hand the transport result to
`Raw::process`. -/
def aggregatesGet (apiKey? : Option String) (r : AggregatesReq)
    (transport : String → Except String Response) : Except ExecError String :=
  match apiKey? with
  | Option.none => Except.error (ExecError.custom "API key not set")
  | Option.some key =>
    let timespan := strToLower (timespanDebug r.timespan)
    let path := "/v2/aggs/ticker/" ++ r.ticker ++ "/range/" ++ toString r.multiplier ++
      "/" ++ timespan ++ "/" ++ r.fromDate ++ "/" ++ r.toDate
    let ps := ["apiKey=" ++ key] ++
      (match r.adjusted with
       | Option.some a => ["adjusted=" ++ toString a]
       | Option.none => []) ++
      (match r.sort with
       | Option.some s => ["sort=" ++ sortDebugLower s]
       | Option.none => []) ++
      (match r.limit with
       | Option.some l => ["limit=" ++ toString l]
       | Option.none => [])
    let url := "https://api.polygon.io" ++ path ++ "?" ++ String.intercalate "&" ps
    rawProcess ((transport url).mapError ExecError.transportErr)

/-! ## `call_endpoint`'s data/metadata split (`src/tool_use.rs` lines 355-376) -/

/-- The envelope split of `call_endpoint`: when the parsed response has
a `results` field, `data` is that field's value and `metadata` is
`Some` of the response with `results` removed (whatever remains, even
an empty object); otherwise `data` is the whole response and
`metadata` is `None`. -/
def splitResults (response : Json) : Json × Option Json :=
  match Json.get response "results" with
  | Option.some results =>
    (results, Option.some (Json.removeField response "results"))
  | Option.none => (response, Option.none)

/-- The parse-then-split tail of `call_endpoint` applied to the raw
JSON body returned by the endpoint call (`src/tool_use.rs` lines
355-370; the source's parse-failure message also interpolates the
serde error text). -/
def callEndpointSplit (jsonStr : String) : Except ExecError (Json × Option Json) :=
  match parseJson jsonStr with
  | Option.none => Except.error (ExecError.custom "Failed to parse JSON")
  | Option.some v => Except.ok (splitResults v)

/-! ## Helper lemmas -/

/-- The classification step never produces a missing-parameters
validation error: its outcomes are success, `ApiError`, or the HTTP
fallback. -/
theorem classify_ne_missing (s : Nat) (b : String) (m : Finset String) :
    classifyResponse s b ≠ Except.error (ExecError.missingParams m) := by
  unfold classifyResponse mkErrorResult
  split
  · split <;> simp
  · simp

/-- The classification step never produces an invalid-parameters
validation error. -/
theorem classify_ne_invalid (s : Nat) (b : String) (i a : Finset String) :
    classifyResponse s b ≠ Except.error (ExecError.invalidParams i a) := by
  unfold classifyResponse mkErrorResult
  split
  · split <;> simp
  · simp

/-- After validation succeeds, the send-and-classify tail can no longer
produce a missing-parameters error. -/
theorem sendClassify_ne_missing (t : String → Except String Response) (u : String)
    (m : Finset String) :
    sendAndClassify t u ≠ Except.error (ExecError.missingParams m) := by
  unfold sendAndClassify
  cases t u with
  | error e => simp
  | ok resp => exact classify_ne_missing _ _ _

/-- After validation succeeds, the send-and-classify tail can no longer
produce an invalid-parameters error. -/
theorem sendClassify_ne_invalid (t : String → Except String Response) (u : String)
    (i a : Finset String) :
    sendAndClassify t u ≠ Except.error (ExecError.invalidParams i a) := by
  unfold sendAndClassify
  cases t u with
  | error e => simp
  | ok resp => exact classify_ne_invalid _ _ _ _

/-- The name set collected by `execute_request` after auth-key
injection is the supplied names plus `apiKey`. -/
theorem provided_eq (q : QueryState) (key : String) :
    ((q.params ++ [("apiKey", key)]).map Prod.fst).toFinset =
      insert "apiKey" (suppliedNames q) := by
  simp only [suppliedNames, List.map_append, List.toFinset_append, List.map_cons,
    List.map_nil, List.toFinset_cons, List.toFinset_nil, insert_emptyc_eq]
  rw [Finset.union_comm, ← Finset.insert_eq]

/-- Erasing the injected auth-key name from the allow-list difference:
the invalid set computed by `execute_request` is the supplied names
minus the allow-list minus `apiKey`. -/
theorem erase_sdiff_eq (S A : Finset String) :
    ((insert "apiKey" S) \ A).erase "apiKey" = S \ insert "apiKey" A := by
  ext x
  simp only [Finset.mem_erase, Finset.mem_sdiff, Finset.mem_insert]
  tauto

/-- If a list ending in `}` contains no `}{`, then appending a block
starting with `{` creates the first `}{` exactly at the junction. -/
theorem dupPos_concat (x y : List Char) (hno : dupPos (x ++ ['}']) = Option.none) :
    dupPos (x ++ '}' :: '{' :: y) = Option.some x.length := by
  induction x with
  | nil => simp [dupPos]
  | cons c xs ih =>
    rw [List.cons_append] at hno ⊢
    simp only [dupPos] at hno ⊢
    by_cases hc : c = '}' ∧ (xs ++ ['}']).head? = Option.some '{'
    · rw [if_pos hc] at hno
      exact absurd hno (by simp)
    · rw [if_neg hc] at hno
      have hno' : dupPos (xs ++ ['}']) = Option.none := by
        cases hdp : dupPos (xs ++ ['}']) with
        | none => rfl
        | some p => rw [hdp] at hno; simp at hno
      have hc2 : ¬ (c = '}' ∧ (xs ++ '}' :: '{' :: y).head? = Option.some '{') := by
        rintro ⟨hc1, hh⟩
        cases xs with
        | nil => simp at hh
        | cons d ds =>
          simp only [List.cons_append, List.head?_cons, Option.some.injEq] at hh
          exact hc ⟨hc1, by simp [hh]⟩
      rw [if_neg hc2, ih hno']
      simp [List.length_cons]

/-- Taking one character past a block keeps the block plus that
character. -/
theorem take_len_succ (x : List Char) (c : Char) (rest : List Char) :
    (x ++ c :: rest).take (x.length + 1) = x ++ [c] := by
  induction x with
  | nil => rfl
  | cons d xs ih => simp [List.take_succ_cons, ih]

/-- The `json_to_parse` truncation recovers exactly the first block
when a `}`-terminated block without internal `}{` is followed by a
`{`-started block. -/
theorem truncAtDup_concat (x y : List Char)
    (hno : dupPos (x ++ ['}']) = Option.none) :
    truncAtDup (String.mk (x ++ ['}']) ++ String.mk ('{' :: y)) = String.mk (x ++ ['}']) := by
  have hdata : (String.mk (x ++ ['}']) ++ String.mk ('{' :: y)).data = x ++ '}' :: '{' :: y := by
    show (x ++ ['}']) ++ '{' :: y = x ++ '}' :: '{' :: y
    rw [List.append_assoc]
    rfl
  unfold truncAtDup
  rw [hdata, dupPos_concat x y hno]
  show String.mk (List.take (x.length + 1) (x ++ '}' :: '{' :: y)) = String.mk (x ++ ['}'])
  rw [take_len_succ]

/-! ## Claim theorems -/

/-- The double-object error body of the claimed scenario. -/
def badTickerBody : String := "\x7b\"error\":\"bad ticker\"\x7d\x7b\"extra\":\"garbage\"\x7d"

/-- The first object of `badTickerBody`, without its closing brace. -/
def badTickerFirst : List Char := String.data "\x7b\"error\":\"bad ticker\""

/-- The second object of `badTickerBody`, without its opening brace. -/
def badTickerRest : List Char := String.data "\"extra\":\"garbage\"\x7d"

/-- The transport-stub body of the `call_endpoint` scenario. -/
def relatedBody : String :=
  "\x7b\"results\":[\x7b\"ticker\":\"MSFT\"\x7d,\x7b\"ticker\":\"GOOG\"\x7d]\x7d"

/-- C1 (counterexample): the claim states that status 300 classifies as
failure-path in the response-classification step and that status 299
classifies as success.  Neither holds: `execute_request`'s
classification (`status >= 400`) returns the body of a 300 response as
success, and `Raw::process` (`status != 200`) turns a 299 response into
an `ApiError`. -/
theorem c1_counterexample :
    classifyResponse 300 "\x7b\"error\":\"boundary\"\x7d" =
      Except.ok "\x7b\"error\":\"boundary\"\x7d" ∧
    rawProcess (Except.ok ⟨299, "all good", Option.none⟩) =
      Except.error (ExecError.apiError 299 "all good" Option.none) :=
  ⟨by decide, by decide⟩

/-- C1 (amended): in `Query::execute_request`'s classification,
statuses 200, 299 and 300 all classify as success (the body is
returned unchanged) and status 400 takes the failure path; in
`Raw::process`, only status 200 classifies as success — every other
status (including 299 and 300) yields an `ApiError` carrying the body
as message. -/
theorem c1_status_classification :
    (∀ body : String, classifyResponse 200 body = Except.ok body) ∧
    (∀ body : String, classifyResponse 299 body = Except.ok body) ∧
    (∀ body : String, classifyResponse 300 body = Except.ok body) ∧
    (∀ body : String, ∃ e : ExecError, classifyResponse 400 body = Except.error e) ∧
    (∀ resp : Response, resp.status = 200 →
      rawProcess (Except.ok resp) = Except.ok resp.body) ∧
    (∀ resp : Response, resp.status ≠ 200 →
      rawProcess (Except.ok resp) =
        Except.error (ExecError.apiError resp.status resp.body resp.requestId)) := by
  refine ⟨?_, ?_, ?_, ?_, ?_, ?_⟩
  · intro body; simp [classifyResponse]
  · intro body; simp [classifyResponse]
  · intro body; simp [classifyResponse]
  · intro body
    unfold classifyResponse mkErrorResult
    rw [if_pos (by norm_num)]
    cases parseJson (truncAtDup body) with
    | some v => exact ⟨_, rfl⟩
    | none => exact ⟨_, rfl⟩
  · intro resp h; simp [rawProcess, h]
  · intro resp h; simp [rawProcess, h]

/-- C1 (witness): the two `Raw::process` conjuncts evaluated at
concrete responses. -/
theorem c1_status_classification_witness :
    ((⟨200, "okbody", Option.none⟩ : Response).status = 200 ∧
      rawProcess (Except.ok ⟨200, "okbody", Option.none⟩) = Except.ok "okbody") ∧
    ((⟨299, "nearly", Option.none⟩ : Response).status ≠ 200 ∧
      rawProcess (Except.ok ⟨299, "nearly", Option.none⟩) =
        Except.error (ExecError.apiError 299 "nearly" Option.none)) :=
  ⟨⟨rfl, c1_status_classification.2.2.2.2.1 ⟨200, "okbody", Option.none⟩ rfl⟩,
   ⟨by decide, c1_status_classification.2.2.2.2.2 ⟨299, "nearly", Option.none⟩ (by decide)⟩⟩

/-- C2 (counterexample): the claim's iff fails when the required set
contains the auth-key name itself: `required = {"apiKey"}` is not a
subset of the supplied names `∅`, yet execute succeeds, because the
injected `apiKey` entry is part of the provided set that the
missing-parameter check runs against. -/
theorem c2_counterexample :
    ¬ (({"apiKey"} : Finset String) ⊆ (∅ : Finset String)) ∧
    (Query.require Query.new "apiKey").required = {"apiKey"} ∧
    suppliedNames (Query.require Query.new "apiKey") = ∅ ∧
    executeRequest (Option.some "k") (Query.require Query.new "apiKey") "https://api.polygon.io/v2/x"
      (fun _ => Except.ok ⟨200, "body", Option.none⟩) = Except.ok "body" :=
  ⟨by decide, by decide, by decide, by decide⟩

/-- C2 (amended): execute fails with the missing-parameters validation
error — listing `missing = required − (supplied ∪ {authKeyName})` — if
and only if the required names are not all among the supplied names
plus the injected `apiKey`; independent of the allow-list settings
(the theorem quantifies over builders with arbitrary allow-lists) and
of the transport. -/
theorem c2_required_validation (key : String) (q : QueryState) (baseUrl : String)
    (t : String → Except String Response) :
    executeRequest (Option.some key) q baseUrl t =
      Except.error (ExecError.missingParams
        (q.required \ insert "apiKey" (suppliedNames q))) ↔
    ¬ q.required ⊆ insert "apiKey" (suppliedNames q) := by
  have hp := provided_eq q key
  simp only [executeRequest, hp]
  by_cases h : q.required \ insert "apiKey" (suppliedNames q) = ∅
  · rw [if_pos h]
    refine iff_of_false ?_ (not_not_intro (Finset.sdiff_eq_empty_iff_subset.mp h))
    split
    · exact sendClassify_ne_missing _ _ _
    · split
      · exact sendClassify_ne_missing _ _ _
      · simp
  · rw [if_neg h]
    exact iff_of_true rfl (fun hsub => h (Finset.sdiff_eq_empty_iff_subset.mpr hsub))

/-- C2 (witness): a builder requiring `ticker` with nothing supplied
fails with the missing-parameters error listing `ticker`. -/
theorem c2_required_validation_witness :
    executeRequest (Option.some "k") (Query.require Query.new "ticker") "u"
      (fun _ => Except.ok ⟨200, "", Option.none⟩) =
      Except.error (ExecError.missingParams
        ((Query.require Query.new "ticker").required \
          insert "apiKey" (suppliedNames (Query.require Query.new "ticker")))) :=
  (c2_required_validation "k" (Query.require Query.new "ticker") "u"
    (fun _ => Except.ok ⟨200, "", Option.none⟩)).mpr (by decide)

/-- C3 (confirmed): with a non-empty allow-list, a present API key and
every required name supplied, execute fails with the
invalid-parameters validation error — listing the invalid names
`supplied − allow-list − {authKeyName}` together with the allow-list —
iff some supplied name lies outside the allow-list plus `apiKey`. -/
theorem c3_allowlist_validation (key : String) (q : QueryState) (baseUrl : String)
    (t : String → Except String Response)
    (hA : q.allowed ≠ ∅) (hR : q.required ⊆ suppliedNames q) :
    executeRequest (Option.some key) q baseUrl t =
      Except.error (ExecError.invalidParams
        (suppliedNames q \ insert "apiKey" q.allowed) q.allowed) ↔
    ¬ suppliedNames q ⊆ insert "apiKey" q.allowed := by
  have hp := provided_eq q key
  have hM : q.required \ insert "apiKey" (suppliedNames q) = ∅ :=
    Finset.sdiff_eq_empty_iff_subset.mpr (hR.trans (Finset.subset_insert _ _))
  simp only [executeRequest, hp]
  rw [if_pos hM, if_neg hA, erase_sdiff_eq]
  by_cases hI : suppliedNames q \ insert "apiKey" q.allowed = ∅
  · rw [if_pos hI]
    exact iff_of_false (sendClassify_ne_invalid _ _ _ _)
      (not_not_intro (Finset.sdiff_eq_empty_iff_subset.mp hI))
  · rw [if_neg hI]
    exact iff_of_true rfl (fun hsub => hI (Finset.sdiff_eq_empty_iff_subset.mpr hsub))

/-- C3 (witness): allow-list `{a}`, supplied name `b`: execute fails
with the invalid-parameters error listing `b` and the allow-list. -/
theorem c3_allowlist_validation_witness :
    (Query.param (Query.optional Query.new "a") "b" "x").allowed ≠ ∅ ∧
    (Query.param (Query.optional Query.new "a") "b" "x").required ⊆
      suppliedNames (Query.param (Query.optional Query.new "a") "b" "x") ∧
    executeRequest (Option.some "k") (Query.param (Query.optional Query.new "a") "b" "x") "u"
      (fun _ => Except.ok ⟨200, "", Option.none⟩) =
      Except.error (ExecError.invalidParams
        (suppliedNames (Query.param (Query.optional Query.new "a") "b" "x") \
          insert "apiKey" (Query.param (Query.optional Query.new "a") "b" "x").allowed)
        (Query.param (Query.optional Query.new "a") "b" "x").allowed) :=
  ⟨by decide, by decide,
   (c3_allowlist_validation "k" (Query.param (Query.optional Query.new "a") "b" "x") "u"
      (fun _ => Except.ok ⟨200, "", Option.none⟩) (by decide) (by decide)).mpr (by decide)⟩

/-- C4 (confirmed): for a failure status, when the body is a
`}`-terminated block with no internal `}{` followed directly by a
`{`-started block — two JSON objects back-to-back — the error-body
parser truncates at the first `}{` boundary, keeping exactly the first
block, and the structured-error attempt parses that first block only
(the non-JSON fallback still reports the full body).  In particular,
executing against a transport answering 400 with
`{"error":"bad ticker"}{"extra":"garbage"}` returns
`ApiError { status: 400, message: "bad ticker", request_id: None }`. -/
theorem c4_error_body_truncation :
    (∀ (x y : List Char) (status : Nat),
      dupPos (x ++ ['}']) = Option.none → 400 ≤ status →
      truncAtDup (String.mk (x ++ ['}']) ++ String.mk ('{' :: y)) = String.mk (x ++ ['}']) ∧
      classifyResponse status (String.mk (x ++ ['}']) ++ String.mk ('{' :: y)) =
        mkErrorResult status (parseJson (String.mk (x ++ ['}'])))
          (String.mk (x ++ ['}']) ++ String.mk ('{' :: y))) ∧
    executeRequest (Option.some "key") Query.new "https://api.polygon.io/v2/aggs"
      (fun _ => Except.ok ⟨400, badTickerBody, Option.none⟩) =
      Except.error (ExecError.apiError 400 "bad ticker" Option.none) := by
  refine ⟨?_, by decide⟩
  intro x y status hno hs
  have htr := truncAtDup_concat x y hno
  refine ⟨htr, ?_⟩
  unfold classifyResponse
  rw [if_pos hs, htr]

/-- C4 (witness): the general truncation conjunct evaluated at the
scenario body's two halves with status 400. -/
theorem c4_error_body_truncation_witness :
    dupPos (badTickerFirst ++ ['}']) = Option.none ∧
    truncAtDup (String.mk (badTickerFirst ++ ['}']) ++ String.mk ('{' :: badTickerRest)) =
      String.mk (badTickerFirst ++ ['}']) ∧
    classifyResponse 400 (String.mk (badTickerFirst ++ ['}']) ++ String.mk ('{' :: badTickerRest)) =
      mkErrorResult 400 (parseJson (String.mk (badTickerFirst ++ ['}'])))
        (String.mk (badTickerFirst ++ ['}']) ++ String.mk ('{' :: badTickerRest)) :=
  ⟨by decide,
   (c4_error_body_truncation.1 badTickerFirst badTickerRest 400 (by decide) (by decide)).1,
   (c4_error_body_truncation.1 badTickerFirst badTickerRest 400 (by decide) (by decide)).2⟩

/-- C5 (counterexample): with the API key absent, the `Aggregates`
endpoint builder's `get` fails with `Error::Custom("API key not set")`
(`src/request/aggs/aggregates.rs` line 180), which is a different
error from `Error::MissingApiKey` — the claim's "every endpoint
builder fails with MissingApiKey" is false. -/
theorem c5_counterexample :
    aggregatesGet Option.none
      ⟨"AAPL", 1, Timespan.day, "2024-01-01", "2024-01-05",
        Option.none, Option.none, Option.none⟩
      (fun _ => Except.ok ⟨200, "\x7b\x7d", Option.none⟩) =
      Except.error (ExecError.custom "API key not set") ∧
    ExecError.custom "API key not set" ≠ ExecError.missingApiKey :=
  ⟨by decide, by decide⟩

/-- C5 (amended): with the API key absent, the generic `Query`
builder's execute fails with `MissingApiKey`, while the `Aggregates`
endpoint builder's `get` fails with `Custom("API key not set")`; in
both cases the failure is independent of the transport (the theorem
holds for every transport function), i.e. it happens before any
transport call is issued. -/
theorem c5_missing_key_before_transport :
    (∀ (q : QueryState) (baseUrl : String) (t : String → Except String Response),
      executeRequest Option.none q baseUrl t = Except.error ExecError.missingApiKey) ∧
    (∀ (r : AggregatesReq) (t : String → Except String Response),
      aggregatesGet Option.none r t = Except.error (ExecError.custom "API key not set")) :=
  ⟨fun _ _ _ => rfl, fun _ _ => rfl⟩

/-- C6 (counterexample): for the scenario body
`{"results":[{"ticker":"MSFT"},{"ticker":"GOOG"}]}` the claim states
`metadata == None`; the code instead removes `results` and wraps the
remaining (empty) envelope object in `Some`, so metadata is
`Some({})`, not `None`. -/
theorem c6_counterexample :
    callEndpointSplit relatedBody =
      Except.ok (Json.arr [Json.obj [("ticker", Json.str "MSFT")],
                           Json.obj [("ticker", Json.str "GOOG")]],
                 Option.some (Json.obj [])) ∧
    Option.some (Json.obj []) ≠ (Option.none : Option Json) :=
  ⟨rfl, fun h => Option.noConfusion h⟩

/-- C6 (amended): when the parsed response has a `results` field,
`data` is that field's value and `metadata` is `Some` of the envelope
with `results` removed — an empty JSON object, not `None`, when no
other envelope fields are present; when `results` is absent, `data` is
the whole body and `metadata` is `None`.  The scenario dispatch
returns the two related tickers as `data` with `metadata = Some({})`. -/
theorem c6_envelope_split :
    (∀ (j r : Json), Json.get j "results" = Option.some r →
      splitResults j = (r, Option.some (Json.removeField j "results"))) ∧
    (∀ j : Json, Json.get j "results" = Option.none →
      splitResults j = (j, Option.none)) ∧
    callEndpointSplit relatedBody =
      Except.ok (Json.arr [Json.obj [("ticker", Json.str "MSFT")],
                           Json.obj [("ticker", Json.str "GOOG")]],
                 Option.some (Json.obj [])) := by
  refine ⟨?_, ?_, rfl⟩
  · intro j r h; simp [splitResults, h]
  · intro j h; simp [splitResults, h]

/-- C6 (witness): the two split conjuncts evaluated at concrete
envelopes, one with an extra `count` field and one without
`results`. -/
theorem c6_envelope_split_witness :
    (Json.get (Json.obj [("results", Json.num 1), ("count", Json.num 2)]) "results" =
        Option.some (Json.num 1) ∧
      splitResults (Json.obj [("results", Json.num 1), ("count", Json.num 2)]) =
        (Json.num 1, Option.some (Json.obj [("count", Json.num 2)]))) ∧
    (Json.get (Json.obj [("count", Json.num 2)]) "results" = Option.none ∧
      splitResults (Json.obj [("count", Json.num 2)]) =
        (Json.obj [("count", Json.num 2)], Option.none)) :=
  ⟨⟨rfl, c6_envelope_split.1 _ _ rfl⟩, ⟨rfl, c6_envelope_split.2.1 _ rfl⟩⟩

/-- C7 (confirmed): `param` is append-only — supplying the same name
twice yields two entries, preserved in insertion order; the
spec-modelled serializer renders every pair, duplicates included, in
order, and — when validation passes (empty allow-list case) — the URL
handed to the transport carries exactly that ordered, duplicate-keeping
query string.  Last-one-wins is nowhere applied. -/
theorem c7_duplicate_params :
    ∀ (q : QueryState) (k v1 v2 key baseUrl : String) (t : String → Except String Response),
    (Query.param (Query.param q k v1) k v2).params = q.params ++ [(k, v1), (k, v2)] ∧
    queryStringOf [(k, v1), (k, v2), ("apiKey", key)] =
      encodePair k v1 ++ "&" ++ (encodePair k v2 ++ "&" ++ encodePair "apiKey" key) ∧
    (q.allowed = ∅ →
      q.required ⊆ insert "apiKey" (suppliedNames (Query.param (Query.param q k v1) k v2)) →
      executeRequest (Option.some key) (Query.param (Query.param q k v1) k v2) baseUrl t =
        sendAndClassify t (baseUrl ++ "?" ++
          queryStringOf (q.params ++ [(k, v1), (k, v2), ("apiKey", key)]))) := by
  intro q k v1 v2 key baseUrl t
  have hparams :
      (Query.param (Query.param q k v1) k v2).params = q.params ++ [(k, v1), (k, v2)] := by
    simp [Query.param]
  refine ⟨hparams, rfl, ?_⟩
  intro hA hR
  have hM : (Query.param (Query.param q k v1) k v2).required \
      insert "apiKey" (suppliedNames (Query.param (Query.param q k v1) k v2)) = ∅ :=
    Finset.sdiff_eq_empty_iff_subset.mpr hR
  have hp := provided_eq (Query.param (Query.param q k v1) k v2) key
  simp only [executeRequest, hp]
  rw [if_pos hM, if_pos (show (Query.param (Query.param q k v1) k v2).allowed = ∅ from hA)]
  congr 2
  rw [hparams, List.append_assoc]
  rfl

/-- C7 (witness): duplicated `ticker` parameter on a fresh builder;
both entries reach the query string handed to the transport, in
order. -/
theorem c7_duplicate_params_witness :
    (Query.new.allowed = ∅) ∧
    (Query.new.required ⊆
      insert "apiKey" (suppliedNames (Query.param (Query.param Query.new "ticker" "A") "ticker" "B"))) ∧
    executeRequest (Option.some "k")
        (Query.param (Query.param Query.new "ticker" "A") "ticker" "B") "u"
        (fun _ => Except.ok ⟨200, "", Option.none⟩) =
      sendAndClassify (fun _ => Except.ok ⟨200, "", Option.none⟩)
        ("u" ++ "?" ++ queryStringOf [("ticker", "A"), ("ticker", "B"), ("apiKey", "k")]) :=
  ⟨by decide, by decide,
   (c7_duplicate_params Query.new "ticker" "A" "B" "k" "u"
      (fun _ => Except.ok ⟨200, "", Option.none⟩)).2.2 (by decide) (by decide)⟩

/-- C8 (confirmed): `Timespan::from_str` accepts the abbreviations
`min`, `hr`, `d`, `wk`, `mo`, `q`, `yr` case-insensitively (any string
whose lowercasing equals the abbreviation parses, and in particular
`wk` parses to `Week`), and any string whose lowercasing is outside
the accepted spellings is the hard parse error
`Invalid timespan: <value>` (the message interpolating the lowercased
value, which for the claim's lowercase example `fortnight` is the
value itself). -/
theorem c8_timespan_from_str :
    timespanFromStr "wk" = Except.ok Timespan.week ∧
    timespanFromStr "fortnight" =
      Except.error (ExecError.custom "Invalid timespan: fortnight") ∧
    (∀ s, strToLower s = "min" → timespanFromStr s = Except.ok Timespan.minute) ∧
    (∀ s, strToLower s = "hr" → timespanFromStr s = Except.ok Timespan.hour) ∧
    (∀ s, strToLower s = "d" → timespanFromStr s = Except.ok Timespan.day) ∧
    (∀ s, strToLower s = "wk" → timespanFromStr s = Except.ok Timespan.week) ∧
    (∀ s, strToLower s = "mo" → timespanFromStr s = Except.ok Timespan.month) ∧
    (∀ s, strToLower s = "q" → timespanFromStr s = Except.ok Timespan.quarter) ∧
    (∀ s, strToLower s = "yr" → timespanFromStr s = Except.ok Timespan.year) ∧
    (∀ s, strToLower s ∉ timespanAccepted →
      timespanFromStr s =
        Except.error (ExecError.custom ("Invalid timespan: " ++ strToLower s))) := by
  refine ⟨by decide, by decide, ?_, ?_, ?_, ?_, ?_, ?_, ?_, ?_⟩
  · intro s h; simp [timespanFromStr, timespanOfLower, h]
  · intro s h; simp [timespanFromStr, timespanOfLower, h]
  · intro s h; simp [timespanFromStr, timespanOfLower, h]
  · intro s h; simp [timespanFromStr, timespanOfLower, h]
  · intro s h; simp [timespanFromStr, timespanOfLower, h]
  · intro s h; simp [timespanFromStr, timespanOfLower, h]
  · intro s h; simp [timespanFromStr, timespanOfLower, h]
  · intro s h
    simp only [timespanAccepted, List.mem_cons, List.mem_singleton, not_or] at h
    obtain ⟨h1, h2, h3, h4, h5, h6, h7, h8, h9, h10, h11, h12, h13, h14, h15, h16, h17,
      h18, h19, h20, h21⟩ := h
    simp [timespanFromStr, timespanOfLower, h1, h2, h3, h4, h5, h6, h7, h8, h9, h10,
      h11, h12, h13, h14, h15, h16, h17, h18, h19, h20, h21]

/-- C8 (witness): case-insensitivity at `MIN` and the hard error at the
unrecognized `zz`. -/
theorem c8_timespan_from_str_witness :
    (strToLower "MIN" = "min" ∧ timespanFromStr "MIN" = Except.ok Timespan.minute) ∧
    (strToLower "zz" ∉ timespanAccepted ∧
      timespanFromStr "zz" =
        Except.error (ExecError.custom ("Invalid timespan: " ++ strToLower "zz"))) :=
  ⟨⟨by decide, c8_timespan_from_str.2.2.1 "MIN" (by decide)⟩,
   ⟨by decide, c8_timespan_from_str.2.2.2.2.2.2.2.2.2 "zz" (by decide)⟩⟩

/-- C9 (confirmed): `Limit` built from a string yields `Some(n)`
exactly when the string parses as a `u32` (`"10"` gives `Some 10`) and
silently yields `None` on every non-parseable string (`"abc"` gives
`None`); the conversion is a total function into `Limit` — string
construction never produces an error. -/
theorem c9_limit_from_str :
    limitFromStr "10" = Limit.some 10 ∧
    limitFromStr "abc" = Limit.none ∧
    (∀ s n, parseU32 s = Option.some n → limitFromStr s = Limit.some n) ∧
    (∀ s, parseU32 s = Option.none → limitFromStr s = Limit.none) := by
  refine ⟨by decide, by decide, ?_, ?_⟩
  · intro s n h; simp [limitFromStr, h]
  · intro s h; simp [limitFromStr, h]

/-- C9 (witness): the two parse-directed conjuncts evaluated at `"20"`
and `"2x"`. -/
theorem c9_limit_from_str_witness :
    (parseU32 "20" = Option.some 20 ∧ limitFromStr "20" = Limit.some 20) ∧
    (parseU32 "2x" = Option.none ∧ limitFromStr "2x" = Limit.none) :=
  ⟨⟨by decide, c9_limit_from_str.2.2.1 "20" 20 (by decide)⟩,
   ⟨by decide, c9_limit_from_str.2.2.2 "2x" (by decide)⟩⟩

/-- C10 (confirmed): `Limit::from` on a signed integer value is
`Limit::Some(value as u32)`: the value reduced modulo `2^32`
(`Limit::from(-1) = Some(4294967295)`); in particular for every
negative `v ≥ -2^32` the stored value is `v + 2^32`, and integer
construction never yields `Limit::None`. -/
theorem c10_limit_from_signed :
    (∀ v : Int, limitFromInt v = Limit.some (castToU32 v)) ∧
    (∀ v : Int, limitFromInt v ≠ Limit.none) ∧
    limitFromInt (-1) = Limit.some 4294967295 ∧
    (∀ v : Int, -4294967296 ≤ v → v < 0 →
      limitFromInt v = Limit.some (v + 4294967296).toNat) := by
  refine ⟨fun v => rfl, fun v => by simp [limitFromInt], by decide, ?_⟩
  intro v h1 h2
  have hmod : v % 4294967296 = v + 4294967296 := by omega
  simp [limitFromInt, castToU32, hmod]

/-- C10 (witness): the wrap-around conjunct evaluated at `-1`. -/
theorem c10_limit_from_signed_witness :
    (-4294967296 ≤ (-1 : Int)) ∧ ((-1 : Int) < 0) ∧
    limitFromInt (-1) = Limit.some ((-1 + 4294967296 : Int)).toNat :=
  ⟨by decide, by decide, c10_limit_from_signed.2.2.2 (-1) (by decide) (by decide)⟩
